import Mathlib

/-!
Verification of the BCA statement parser (`parser.go`).

The parser is embedded shallowly: every definition below translates one Go
function or compiled regular expression from `parser.go`.  Strings are
modelled as `List Char` (Go strings are byte slices; all inputs of interest
are ASCII, where bytes and runes coincide).  Monetary values are modelled
in integer cents (`Nat`): every amount the parser extracts has the shape
`digits.dd`, so cents are exact where `float64` rounds; the only behaviour
the parser observes about a parsed amount is its value and positivity, which
the cents model preserves for all statement-sized amounts.

Regular-expression matching is modelled by direct scanners with RE2
leftmost-match semantics.  For each pattern the greedy/lazy quantifier
structure was analysed: wherever adjacent character classes are disjoint the
match at a given start position is unique, so the scanners below (maximal
runs, advance one character on failure) implement exactly the Go behaviour.

`time.Date` is modelled by `goDateDays`: days since January 1 of year 1 in
the proleptic Gregorian calendar, with Go's month normalisation and `day-1`
offset arithmetic; the clock component (always zero here) is kept in
`GoTime.secs` so that `time.Time.IsZero` is `days = 0 ∧ secs = 0`.
-/

namespace BCA

def str (s : String) : List Char := s.data

/-- RE2 character class `\s` (as used in the Go regexps): `[\t\n\f\r ]`. -/
def regexSpace (c : Char) : Bool :=
  c == '\t' || c == '\n' || c == '\x0c' || c == '\r' || c == ' '

/-- ASCII part of `unicode.IsSpace`, used by `strings.TrimSpace`. -/
def goSpace (c : Char) : Bool :=
  c == ' ' || c == '\t' || c == '\n' || c == '\x0b' || c == '\x0c' || c == '\r'

/-- Go regexp `\w` / word characters: `[0-9A-Za-z_]`. -/
def isWordChar (c : Char) : Bool :=
  c.isDigit || ('a' ≤ c && c ≤ 'z') || ('A' ≤ c && c ≤ 'Z') || c == '_'

/-- `strings.TrimSpace`. -/
def trimSpace (l : List Char) : List Char :=
  ((l.dropWhile goSpace).reverse.dropWhile goSpace).reverse

/-- `strings.Contains hay needle` (nonempty needles only are used). -/
def containsSub (needle : List Char) : List Char → Bool
  | [] => needle.isEmpty
  | c :: t => needle.isPrefixOf (c :: t) || containsSub needle t

def digitVal (c : Char) : Nat := c.toNat - '0'.toNat

def twoDigitVal (a b : Char) : Nat := 10 * digitVal a + digitVal b

def natOfDigits (l : List Char) : Nat :=
  l.foldl (fun a c => 10 * a + digitVal c) 0

/-- `strconv.Atoi` restricted to the unsigned digit strings the parser feeds it. -/
def atoi (l : List Char) : Option Nat :=
  if !l.isEmpty && l.all Char.isDigit then some (natOfDigits l) else none

def splitOnChar (sep : Char) : List Char → List (List Char)
  | [] => [[]]
  | c :: rest =>
    if c = sep then [] :: splitOnChar sep rest
    else
      match splitOnChar sep rest with
      | [] => [[c]]
      | p :: ps => (c :: p) :: ps

/-- `strings.ReplaceAll hay needle ""` for a nonempty needle
(left-to-right, non-overlapping), with fuel for structural recursion. -/
def removeAllGo (needle : List Char) : Nat → List Char → List Char
  | 0, hay => hay
  | _, [] => []
  | fuel + 1, c :: rest =>
    if !needle.isEmpty && needle.isPrefixOf (c :: rest) then
      removeAllGo needle fuel ((c :: rest).drop needle.length)
    else c :: removeAllGo needle fuel rest

def removeAll (hay needle : List Char) : List Char :=
  removeAllGo needle hay.length hay

/-! ## Go `time.Date` arithmetic -/

structure GoTime where
  days : Int
  secs : Nat
deriving DecidableEq, Repr

def GoTime.isZero (t : GoTime) : Bool := t.days == 0 && t.secs == 0

def isLeap (y : Int) : Bool := y % 4 == 0 && (y % 100 != 0 || y % 400 == 0)

/-- Days from January 1 of year 1 to January 1 of year `y`
(proleptic Gregorian; `/` on `Int` is floor division for these positive divisors). -/
def daysBeforeYear (y : Int) : Int :=
  (y - 1) * 365 + (y - 1) / 4 - (y - 1) / 100 + (y - 1) / 400

/-- Days in year before the first of month `m` (`m` in 1..12). -/
def monthDaysBefore (leap : Bool) (m : Nat) : Nat :=
  let base := [0, 31, 59, 90, 120, 151, 181, 212, 243, 273, 304, 334].getD (m - 1) 0
  if leap && decide (3 ≤ m) then base + 1 else base

/-- Go's `norm(year, month-1, 12)` for a two-digit month value (0..99). -/
def normYM (year : Int) (month : Nat) : Int × Nat :=
  if month = 0 then (year - 1, 12)
  else (year + ((month - 1) / 12 : Nat), (month - 1) % 12 + 1)

/-- Day number of `time.Date(year, month, day, 0,0,0,0, UTC)`:
month is normalised, the (possibly out-of-range) day is added as an offset. -/
def goDateDays (year : Int) (month day : Nat) : Int :=
  let ym := normYM year month
  daysBeforeYear ym.1 + (monthDaysBefore (isLeap ym.1) ym.2 : Int) + (day : Int) - 1

def goDate (year : Int) (month day : Nat) : GoTime :=
  { days := goDateDays year month day, secs := 0 }

/-- `parseDate` (parser.go:525): split on `/`, Atoi both halves, call `time.Date`.
The `time.Time{}` returns of the two error branches are modelled as `none`. -/
def parseDate (l : List Char) (year : Int) : Option GoTime :=
  match splitOnChar '/' l with
  | [p1, p2] =>
    match atoi p1, atoi p2 with
    | some day, some month => some (goDate year month day)
    | _, _ => none
  | _ => none

/-! ## Monetary token extraction (`extractAmounts`, parser.go:542) -/

def amtChar (c : Char) : Bool := c.isDigit || c == ','

/-- One match attempt of `([\d,]+\.\d{2})(?:\D|$)` at the current position.
`[\d,]+` is greedy and `.` is not in its class, so no backtracking exists:
the maximal run either completes the match or no match starts here.
Returns the captured token and the text after the whole match (including
the consumed trailing non-digit, where the next scan resumes). -/
def amountMatchAt (cs : List Char) : Option (List Char × List Char) :=
  let run := cs.takeWhile amtChar
  if run.isEmpty then none
  else
    match cs.dropWhile amtChar with
    | '.' :: d1 :: d2 :: rest =>
      if d1.isDigit && d2.isDigit then
        match rest with
        | [] => some (run ++ ['.', d1, d2], [])
        | c :: rest2 => if c.isDigit then none else some (run ++ ['.', d1, d2], rest2)
      else none
    | _ => none

def amountTokensGo : Nat → List Char → List (List Char)
  | 0, _ => []
  | _, [] => []
  | fuel + 1, c :: cs =>
    match amountMatchAt (c :: cs) with
    | some (tok, rest) => tok :: amountTokensGo fuel rest
    | none => amountTokensGo fuel cs

/-- `extractAmountStrings` (parser.go:567): the ordered amount tokens. -/
def extractAmountTokens (l : List Char) : List (List Char) :=
  amountTokensGo l.length l

/-- `parseAmount` (parser.go:582) in integer cents: strip commas, read `digits.dd`. -/
def parseAmountCents (tok : List Char) : Nat :=
  let cleaned := tok.filter (fun c => c ≠ ',')
  match splitOnChar '.' cleaned with
  | [ip, [d1, d2]] => 100 * natOfDigits ip + twoDigitVal d1 d2
  | _ => 0

/-- `extractAmounts` (parser.go:542): ordered positive amounts, in cents. -/
def extractAmounts (l : List Char) : List Nat :=
  (extractAmountTokens l).filterMap fun tok =>
    let a := parseAmountCents tok
    if 0 < a then some a else none

/-! ## Line-level patterns -/

/-- `^\d+\.\d{2}$` without anchors: a full digits-dot-two-digits shape. -/
def amtEchoShape (l : List Char) : Bool :=
  !(l.takeWhile Char.isDigit).isEmpty &&
    match l.dropWhile Char.isDigit with
    | ['.', d1, d2] => d1.isDigit && d2.isDigit
    | _ => false

/-- `echoLinePattern = ^\d+\.\d{2}$` (parser.go:311). -/
def echoLinePat (l : List Char) : Bool := amtEchoShape l

/-- `tanggalEchoPattern = ^TANGGAL\s*:\d{2}/\d{2}\s+\d+\.\d{2}$` (parser.go:316). -/
def tanggalEchoPat (l : List Char) : Bool :=
  if (str "TANGGAL").isPrefixOf l then
    match (l.drop 7).dropWhile regexSpace with
    | ':' :: a :: b :: '/' :: c :: d :: rest =>
      a.isDigit && b.isDigit && c.isDigit && d.isDigit &&
      !(rest.takeWhile regexSpace).isEmpty &&
      amtEchoShape (rest.dropWhile regexSpace)
    | _ => false
  else false

/-- `isEchoLine` (parser.go:319). -/
def isEchoLine (l : List Char) : Bool := echoLinePat l || tanggalEchoPat l

/-- `qrZeroPrefix = ^0+\.00(.+)$` applied with `TrimSpace(m[1])` (parser.go:386):
strip a zero-padded amount-shaped code fused to trailing text.
`.` does not match a newline, so the trailing text must be newline-free. -/
def qrZeroStrip (l : List Char) : List Char :=
  if (l.takeWhile (fun c => c == '0')).isEmpty then l
  else
    match l.dropWhile (fun c => c == '0') with
    | '.' :: '0' :: '0' :: r =>
      if !r.isEmpty && r.all (fun c => c ≠ '\n') then trimSpace r else l
    | _ => l

/-- Case-insensitive comparison on ASCII letters, for `(?i)` regexps. -/
def lowerAscii (c : Char) : Char :=
  if 'A' ≤ c && c ≤ 'Z' then Char.ofNat (c.toNat + 32) else c

def eqCI (a b : Char) : Bool := lowerAscii a == lowerAscii b

def isPrefixCI : List Char → List Char → Bool
  | [], _ => true
  | _ :: _, [] => false
  | a :: as, b :: bs => eqCI a b && isPrefixCI as bs

def spbuMarker : List Char := str "KARTU DEBIT SPBU"

def spbuCodeChar (c : Char) : Bool := c.isDigit || c == '.' || c == ',' || c == '-'

/-- `spbuPumpCode.ReplaceAllString text "${1}"` for
`(?i)(KARTU DEBIT SPBU\s+)([\d.,\-]+)` (parser.go:127): drop the pump code,
keep the marker and its whitespace verbatim. -/
def spbuStripGo : Nat → List Char → List Char
  | 0, l => l
  | _, [] => []
  | fuel + 1, c :: cs =>
    if isPrefixCI spbuMarker (c :: cs) then
      let after := (c :: cs).drop 16
      let sp := after.takeWhile regexSpace
      let rest1 := after.dropWhile regexSpace
      let code := rest1.takeWhile spbuCodeChar
      let rest2 := rest1.dropWhile spbuCodeChar
      if !sp.isEmpty && !code.isEmpty then
        (c :: cs).take 16 ++ sp ++ spbuStripGo fuel rest2
      else c :: spbuStripGo fuel cs
    else c :: spbuStripGo fuel cs

def spbuStripAll (l : List Char) : List Char := spbuStripGo l.length l

/-- `^(\d{2}/\d{2})` on the buffer's first line (parser.go:410). -/
def leadingDateStr (l : List Char) : Option (List Char) :=
  match l with
  | d1 :: d2 :: '/' :: m1 :: m2 :: _ =>
    if d1.isDigit && d2.isDigit && m1.isDigit && m2.isDigit
    then some [d1, d2, '/', m1, m2] else none
  | _ => none

/-- `^\d{2}/\d{2}\s*` removal from the description (parser.go:491). -/
def stripLeadDate (l : List Char) : List Char :=
  match l with
  | d1 :: d2 :: '/' :: m1 :: m2 :: rest =>
    if d1.isDigit && d2.isDigit && m1.isDigit && m2.isDigit
    then rest.dropWhile regexSpace else l
  | _ => l

/-- Existence of a whole-word two-letter token, as matched by
`(?:^|\W)XY(?:\W|$)` (parser.go:324). -/
def existsWordTokGo (a b : Char) : Bool → List Char → Bool
  | _, [] => false
  | prevW, c :: rest =>
    (!prevW && c == a &&
      match rest with
      | r1 :: rest2 =>
        r1 == b && (match rest2 with | [] => true | r2 :: _ => !isWordChar r2)
      | [] => false)
    || existsWordTokGo a b (isWordChar c) rest

def existsWordTok (a b : Char) (l : List Char) : Bool := existsWordTokGo a b false l

/-- `detectType` (parser.go:338). -/
def detectType (dateLine ft : List Char) : List Char :=
  let hasCR := containsSub (str " CR") dateLine || (str "CR").isSuffixOf dateLine
  let hasDB := containsSub (str " DB") dateLine || (str "DB").isSuffixOf dateLine
  if hasCR || containsSub (str "TRANSFER DR") dateLine then str "CR"
  else if hasDB || containsSub (str "TRANSFER KE") dateLine
      || containsSub (str "TARIKAN ATM") dateLine
      || containsSub (str "TRANSAKSI DEBIT") dateLine
      || containsSub (str "DEBIT DOMESTIK") dateLine then str "DB"
  else if containsSub (str "KR INTERCHANGE") ft then str "CR"
  else if existsWordTok 'D' 'B' ft then str "DB"
  else if existsWordTok 'C' 'R' ft then str "CR"
  else []

/-- `\b(DB|CR)\b` ReplaceAll with `""` (parser.go:503): drop standalone
DB/CR tokens; the boolean argument carries whether the previous original
character was a word character. -/
def removeDBCRGo : Nat → Bool → List Char → List Char
  | 0, _, l => l
  | _, _, [] => []
  | fuel + 1, prevW, c1 :: rest1 =>
    match rest1 with
    | c2 :: rest =>
      if !prevW && ((c1 == 'D' && c2 == 'B') || (c1 == 'C' && c2 == 'R')) &&
          (match rest with | [] => true | r :: _ => !isWordChar r) then
        removeDBCRGo fuel true rest
      else c1 :: removeDBCRGo fuel (isWordChar c1) (c2 :: rest)
    | [] => [c1]

def removeDBCR (l : List Char) : List Char := removeDBCRGo l.length false l

/-- `\s+` ReplaceAll with a single space (parser.go:507). -/
def collapseWS : List Char → List Char
  | [] => []
  | c :: rest =>
    if regexSpace c then
      match collapseWS rest with
      | [] => [' ']
      | d :: ds => if d = ' ' then d :: ds else ' ' :: d :: ds
    else c :: collapseWS rest

/-! ## Field extraction (`processTransactionBuffer`, parser.go:374) -/

structure Transaction where
  date : GoTime
  description : List Char
  type : List Char
  amount : Nat
  balance : Nat
deriving DecidableEq, Repr

/-- Continuation-line filtering (parser.go:385-398): drop echo lines, strip
the QR zero-prefix, drop lines that became empty. -/
def filterBufferTail (rest : List (List Char)) : List (List Char) :=
  rest.filterMap fun l =>
    if isEchoLine l then none
    else
      let l2 := qrZeroStrip l
      if l2.isEmpty then none else some l2

/-- The full text of a buffered group: filtered lines joined by single
spaces (parser.go:400), with the SPBU pump code stripped when the marker
phrase is present (parser.go:405-407). -/
def groupFullText (buffer : List (List Char)) : List Char :=
  match buffer with
  | [] => []
  | b0 :: rest =>
    let j := List.intercalate (str " ") (b0 :: filterBufferTail rest)
    if containsSub spbuMarker j then spbuStripAll j else j

/-- Amount/balance assignment from the extracted sequence (parser.go:511-516). -/
def assignAB (amts : List Nat) : Nat × Nat :=
  if 2 ≤ amts.length then (amts.getD (amts.length - 2) 0, amts.getLastD 0)
  else if amts.length = 1 then (amts.headD 0, 0)
  else (0, 0)

/-- The generic (non-special) tail of `processTransactionBuffer`
(parser.go:483-521). -/
def genericTxn (b0 ft : List Char) (t : GoTime) : List Transaction :=
  let ty := detectType b0 ft
  let desc0 := stripLeadDate ft
  let amts := extractAmounts desc0
  let toks := extractAmountTokens desc0
  let desc1 := toks.foldl (fun d tok => removeAll d tok) desc0
  let desc3 := trimSpace (collapseWS (removeDBCR desc1))
  let ab := assignAB amts
  if desc3.isEmpty then []
  else [{ date := t, description := desc3, type := ty, amount := ab.1, balance := ab.2 }]

/-- Core of `processTransactionBuffer` after the buffer's full text has been
assembled: date checks, the four special-case branches, then the generic
branch.  Returns the list of appended transactions ([] or a singleton). -/
def pTBCore (b0 ft : List Char) (year : Int) : List Transaction :=
  match leadingDateStr b0 with
  | none => []
  | some ds =>
    match parseDate ds year with
    | none => []
    | some t =>
      if t.isZero then []
      else if containsSub (str "SALDO AWAL") ft then
        [{ date := t, description := str "SALDO AWAL", type := str "OPENING",
           amount := 0, balance := (extractAmounts ft).headD 0 }]
      else if containsSub (str "BUNGA") ft && !containsSub (str "PAJAK") ft then
        [{ date := t, description := str "BUNGA (Interest)", type := str "CR",
           amount := (extractAmounts ft).getD 0 0, balance := (extractAmounts ft).getD 1 0 }]
      else if containsSub (str "PAJAK BUNGA") ft then
        [{ date := t, description := str "PAJAK BUNGA (Tax on Interest)", type := str "DB",
           amount := (extractAmounts ft).getD 0 0, balance := (extractAmounts ft).getD 1 0 }]
      else if containsSub (str "BIAYA ADM") ft then
        [{ date := t, description := str "BIAYA ADM (Admin Fee)", type := str "DB",
           amount := (extractAmounts ft).getD 0 0, balance := (extractAmounts ft).getD 1 0 }]
      else genericTxn b0 ft t

/-- `processTransactionBuffer` (parser.go:374): the transactions appended for
one buffered group. -/
def processTransactionBuffer (buffer : List (List Char)) (year : Int) : List Transaction :=
  match buffer with
  | [] => []
  | b0 :: _ => pTBCore b0 (groupFullText buffer) year

/-! ## The transaction state machine (`extractTransactions`, parser.go:162) -/

def sentinelPhrase : List Char := str "TANGGAL KETERANGAN CBG MUTASI SALDO"

def bersambungPhrase : List Char := str "Bersambung ke halaman berikut"

/-- Characters of the class `[\x{2022}\xE2\x80\xA2]` in `inlinePageBreak`. -/
def inlineBlobChar (c : Char) : Bool :=
  c == '•' || c == 'â' || c == '\u0080' || c == '¢'

/-- The lazy `.*?[class]\s*$` tail of `inlinePageBreak`: some class character
is reachable through non-newline characters and is followed only by
whitespace up to the end of the line. -/
def inlineTail : List Char → Bool
  | [] => false
  | c :: rest => (inlineBlobChar c && rest.all regexSpace) || (c ≠ '\n' && inlineTail rest)

/-- Does a match of `inlinePageBreak` (parser.go:158) begin exactly here?
The phrase is matched case-insensitively, `\b` requires a non-word
character (or the end) after it, and the match always extends to `$`. -/
def inlineMatchBegin (l : List Char) : Bool :=
  isPrefixCI bersambungPhrase l &&
  (match l.drop 29 with | [] => true | c :: _ => !isWordChar c) &&
  inlineTail (l.drop 29)

/-- `inlinePageBreak.ReplaceAllString rawLine ""` (parser.go:201): every match
runs to the end of the line, so the result is the prefix before the
leftmost match begin. -/
def stripInlineGo : List Char → List Char
  | [] => []
  | c :: cs => if inlineMatchBegin (c :: cs) then [] else c :: stripInlineGo cs

/-- `pageNumberPattern = ^\d+\s*/\s*\d*$` (parser.go:289). -/
def pageNumberPat (l : List Char) : Bool :=
  !(l.takeWhile Char.isDigit).isEmpty &&
    match (l.dropWhile Char.isDigit).dropWhile regexSpace with
    | '/' :: l3 => (l3.dropWhile regexSpace).all Char.isDigit
    | _ => false

/-- `isSummaryLine` (parser.go:293). -/
def isSummaryLine (l : List Char) : Bool :=
  (str "SALDO AWAL :").isPrefixOf l || (str "MUTASI CR :").isPrefixOf l ||
  (str "MUTASI DB :").isPrefixOf l || (str "SALDO AKHIR :").isPrefixOf l

/-- `datePattern = ^\d{2}/\d{2}\s` (parser.go:171). -/
def dateStart (l : List Char) : Bool :=
  match l with
  | d1 :: d2 :: '/' :: m1 :: m2 :: s :: _ =>
    d1.isDigit && d2.isDigit && m1.isDigit && m2.isDigit && regexSpace s
  | _ => false

/-- A `\d{2}/\d{2}\s` token begins here (the part of `embeddedTxnDate` after
the consumed preceding character). -/
def embeddedAfterShape (cs : List Char) : Bool :=
  match cs with
  | a :: b :: '/' :: c :: d :: s :: _ =>
    a.isDigit && b.isDigit && c.isDigit && d.isDigit && regexSpace s
  | _ => false

/-- `embeddedTxnDate.FindStringIndex` (parser.go:135): index of the start of
the leftmost match of `(?:[^\s:])(\d{2}/\d{2}\s)`, i.e. of the non-space,
non-colon character directly before the glued date token. -/
def embeddedDateIdx : List Char → Option Nat
  | [] => none
  | c :: cs =>
    if !(regexSpace c || c == ':') && embeddedAfterShape cs then some 0
    else (embeddedDateIdx cs).map (fun i => i + 1)

/-- `monthCapture = ^\d{2}/(\d{2})` with `Atoi` of the capture (parser.go:172). -/
def monthOf (l : List Char) : Option Nat :=
  match l with
  | d1 :: d2 :: '/' :: m1 :: m2 :: _ =>
    if d1.isDigit && d2.isDigit && m1.isDigit && m2.isDigit
    then some (twoDigitVal m1 m2) else none
  | _ => none

structure MachineState where
  buffer : List (List Char)
  year : Int
  lastMonth : Nat
  inTransactions : Bool
  inPageHeader : Bool
  txs : List Transaction
deriving DecidableEq, Repr

/-- `flushBuffer` (parser.go:178): on a non-empty buffer, apply the
December-to-January year rollover, record the month, process the buffer
with the (possibly incremented) year and clear it. -/
def flushBuffer (st : MachineState) : MachineState :=
  match st.buffer with
  | [] => st
  | b0 :: _ =>
    let ym : Int × Nat :=
      match monthOf b0 with
      | some month =>
        (if st.lastMonth = 12 ∧ month = 1 then st.year + 1 else st.year,
         if 0 < month then month else st.lastMonth)
      | none => (st.year, st.lastMonth)
    { buffer := [], year := ym.1, lastMonth := ym.2,
      inTransactions := st.inTransactions, inPageHeader := st.inPageHeader,
      txs := st.txs ++ processTransactionBuffer st.buffer ym.1 }

/-- One iteration of the line loop of `extractTransactions` (parser.go:195-282). -/
def lineStep (st : MachineState) (rawLine : List Char) : MachineState :=
  let line := trimSpace (stripInlineGo rawLine)
  if line.isEmpty then st
  else if containsSub bersambungPhrase line then { st with inPageHeader := true }
  else if st.inPageHeader && !containsSub sentinelPhrase line then st
  else if containsSub sentinelPhrase line then
    let st1 := flushBuffer st
    { st1 with inPageHeader := false, inTransactions := true }
  else if !st.inTransactions then st
  else if isSummaryLine line then
    let st1 := flushBuffer st
    { st1 with inTransactions := false }
  else if pageNumberPat line then st
  else if dateStart line then
    let st1 := flushBuffer st
    { st1 with buffer := [line] }
  else if !st.buffer.isEmpty then
    match embeddedDateIdx line with
    | some i =>
      let pfx := trimSpace (line.take (i + 1))
      let newStart := trimSpace (line.drop (i + 1))
      let st1 := if pfx.isEmpty then st else { st with buffer := st.buffer ++ [pfx] }
      let st2 := flushBuffer st1
      { st2 with buffer := [newStart] }
    | none => { st with buffer := st.buffer ++ [line] }
  else st

/-- `extractTransactions` (parser.go:162): fold the line loop over the
input and perform the final flush. -/
def extractTransactions (lines : List (List Char)) (year0 : Int) : List Transaction :=
  (flushBuffer (lines.foldl lineStep
    { buffer := [], year := year0, lastMonth := 0,
      inTransactions := false, inPageHeader := false, txs := [] })).txs

/-! ## Account info and summary extraction (parser.go:91,604) -/

structure AccountInfo where
  accountNumber : List Char
  accountHolder : List Char
  period : List Char
  currency : List Char
deriving DecidableEq, Repr

structure Summary where
  openingBalance : Nat
  totalCredits : Nat
  creditCount : Nat
  totalDebits : Nat
  debitCount : Nat
  closingBalance : Nat
deriving DecidableEq, Repr

/-- Leftmost-match scan: try a match at every position, left to right. -/
def scanFor {α : Type} (f : List Char → Option α) : List Char → Option α
  | [] => none
  | c :: cs =>
    match f (c :: cs) with
    | some r => some r
    | none => scanFor f cs

/-- A match of `NO\.\s*REKENING\s*:\s*(\d+)` starting here; yields the digits. -/
def acctNumMatchAt (cs : List Char) : Option (List Char) :=
  if (str "NO.").isPrefixOf cs then
    let r1 := (cs.drop 3).dropWhile regexSpace
    if (str "REKENING").isPrefixOf r1 then
      match (r1.drop 8).dropWhile regexSpace with
      | ':' :: r3 =>
        let ds := (r3.dropWhile regexSpace).takeWhile Char.isDigit
        if ds.isEmpty then none else some ds
      | _ => none
    else none
  else none

/-- A match of `PERIODE\s*:\s*([A-Z]+\s+\d+)` starting here; yields the capture. -/
def periodMatchAt (cs : List Char) : Option (List Char) :=
  if (str "PERIODE").isPrefixOf cs then
    match (cs.drop 7).dropWhile regexSpace with
    | ':' :: r2 =>
      let r3 := r2.dropWhile regexSpace
      let letters := r3.takeWhile (fun c => 'A' ≤ c && c ≤ 'Z')
      let r4 := r3.dropWhile (fun c => 'A' ≤ c && c ≤ 'Z')
      let sp := r4.takeWhile regexSpace
      let ds := (r4.dropWhile regexSpace).takeWhile Char.isDigit
      if !letters.isEmpty && !sp.isEmpty && !ds.isEmpty
      then some (letters ++ sp ++ ds) else none
    | _ => none
  else none

/-- A match of `MATA\s+UANG\s*:\s*(\w+)` starting here; yields the capture. -/
def currencyMatchAt (cs : List Char) : Option (List Char) :=
  if (str "MATA").isPrefixOf cs then
    let sp := (cs.drop 4).takeWhile regexSpace
    let r1 := (cs.drop 4).dropWhile regexSpace
    if !sp.isEmpty && (str "UANG").isPrefixOf r1 then
      match (r1.drop 4).dropWhile regexSpace with
      | ':' :: r2 =>
        let w := (r2.dropWhile regexSpace).takeWhile isWordChar
        if w.isEmpty then none else some w
      | _ => none
    else none
  else none

/-- The `\s+NO\.\s*REKENING\s*:` tail of the holder pattern begins here. -/
def holderTailOk (cs : List Char) : Bool :=
  !(cs.takeWhile regexSpace).isEmpty &&
    (let r1 := cs.dropWhile regexSpace
     (str "NO.").isPrefixOf r1 &&
       (let r2 := (r1.drop 3).dropWhile regexSpace
        (str "REKENING").isPrefixOf r2 &&
          match (r2.drop 8).dropWhile regexSpace with
          | ':' :: _ => true
          | _ => false))

/-- Lazy `(.+?)` of the holder pattern `(?m)^(.+?)\s+NO\.\s*REKENING\s*:`
from a line start: the shortest non-empty newline-free group whose tail
matches. -/
def holderFromStart (acc : List Char) : List Char → Option (List Char)
  | [] => none
  | c :: rest =>
    if c = '\n' then none
    else if holderTailOk rest then some (acc ++ [c])
    else holderFromStart (acc ++ [c]) rest

def nextLineStart : List Char → Option (List Char)
  | [] => none
  | '\n' :: rest => some rest
  | _ :: rest => nextLineStart rest

def holderSearchGo : Nat → List Char → Option (List Char)
  | 0, _ => none
  | fuel + 1, cs =>
    match holderFromStart [] cs with
    | some g => some g
    | none =>
      match nextLineStart cs with
      | some rest => holderSearchGo fuel rest
      | none => none

/-- Leftmost match of the multiline holder pattern (parser.go:109). -/
def holderSearch (content : List Char) : Option (List Char) :=
  holderSearchGo (content.length + 1) content

/-- `extractAccountInfo` (parser.go:91).  On a holder-pattern miss, the
holder falls back to the document's third line when it exists. -/
def extractAccountInfo (content : List Char) (lines : List (List Char)) : AccountInfo :=
  let acct := (scanFor acctNumMatchAt content).getD []
  let period := (scanFor periodMatchAt content).getD []
  let holder :=
    match holderSearch content with
    | some h => trimSpace h
    | none => if 2 < lines.length then trimSpace (lines.getD 2 []) else []
  let curr := (scanFor currencyMatchAt content).getD []
  { accountNumber := acct, accountHolder := holder, period := period, currency := curr }

/-- A match of `[\d,]+\.\d{2}` starting here (summary amount captures have
no trailing boundary requirement); yields token and rest. -/
def amountTokenHere (cs : List Char) : Option (List Char × List Char) :=
  let run := cs.takeWhile amtChar
  if run.isEmpty then none
  else
    match cs.dropWhile amtChar with
    | '.' :: a :: b :: rest =>
      if a.isDigit && b.isDigit then some (run ++ ['.', a, b], rest) else none
    | _ => none

/-- A match of `LABEL\s*:\s*([\d,]+\.\d{2})` starting here; yields cents. -/
def labeledAmountMatchAt (label : List Char) (cs : List Char) : Option Nat :=
  if label.isPrefixOf cs then
    match (cs.drop label.length).dropWhile regexSpace with
    | ':' :: r2 =>
      (amountTokenHere (r2.dropWhile regexSpace)).map fun p => parseAmountCents p.1
    | _ => none
  else none

/-- A match of `LABEL\s*:\s*([\d,]+\.\d{2})\s+(\d+)` starting here. -/
def labeledAmountCountMatchAt (label : List Char) (cs : List Char) : Option (Nat × Nat) :=
  if label.isPrefixOf cs then
    match (cs.drop label.length).dropWhile regexSpace with
    | ':' :: r2 =>
      match amountTokenHere (r2.dropWhile regexSpace) with
      | some (tok, rest) =>
        let sp := rest.takeWhile regexSpace
        let ds := (rest.dropWhile regexSpace).takeWhile Char.isDigit
        if !sp.isEmpty && !ds.isEmpty then some (parseAmountCents tok, natOfDigits ds)
        else none
      | none => none
    | _ => none
  else none

def saldoAwalMatchAt (cs : List Char) : Option Nat :=
  labeledAmountMatchAt (str "SALDO AWAL") cs

def saldoAkhirMatchAt (cs : List Char) : Option Nat :=
  labeledAmountMatchAt (str "SALDO AKHIR") cs

def mutasiCRMatchAt (cs : List Char) : Option (Nat × Nat) :=
  labeledAmountCountMatchAt (str "MUTASI CR") cs

def mutasiDBMatchAt (cs : List Char) : Option (Nat × Nat) :=
  labeledAmountCountMatchAt (str "MUTASI DB") cs

/-- `extractSummary` (parser.go:604). -/
def extractSummary (content : List Char) : Summary :=
  let ob := (scanFor saldoAwalMatchAt content).getD 0
  let crp := (scanFor mutasiCRMatchAt content).getD (0, 0)
  let dbp := (scanFor mutasiDBMatchAt content).getD (0, 0)
  let cb := (scanFor saldoAkhirMatchAt content).getD 0
  { openingBalance := ob, totalCredits := crp.1, creditCount := crp.2,
    totalDebits := dbp.1, debitCount := dbp.2, closingBalance := cb }

/-! ## Top-level parse (`Parse`, parser.go:58) -/

/-- `\d{4}` FindString + Atoi, leftmost four consecutive digits. -/
def findFourDigits : List Char → Option Nat
  | [] => none
  | c1 :: rest =>
    match rest with
    | c2 :: c3 :: c4 :: _ =>
      if c1.isDigit && c2.isDigit && c3.isDigit && c4.isDigit then
        some (1000 * digitVal c1 + 100 * digitVal c2 + 10 * digitVal c3 + digitVal c4)
      else findFourDigits rest
    | _ => none

/-- `getYearFromPeriod` (parser.go:592).  `nowYear` models the ambient
wall-clock value `time.Now().Year()` used by the fallback branch. -/
def getYearFromPeriod (period : List Char) (nowYear : Int) : Int :=
  match findFourDigits period with
  | some y => (y : Int)
  | none => nowYear

def contentOf (lines : List (List Char)) : List Char :=
  List.intercalate [ '\n' ] lines

structure ParseResult where
  accountInfo : AccountInfo
  transactions : List Transaction
  summary : Summary
deriving DecidableEq, Repr

/-- The parsing pipeline of `Parse` after the file has been read
(parser.go:76-86), as a function of the input lines and the ambient
wall-clock year. -/
def parseLines (lines : List (List Char)) (nowYear : Int) : ParseResult :=
  let content := contentOf lines
  let info := extractAccountInfo content lines
  let txs := extractTransactions lines (getYearFromPeriod info.period nowYear)
  { accountInfo := info, transactions := txs, summary := extractSummary content }

/-- `Parse` (parser.go:58) with document acquisition modelled as an
`Option`: `none` stands for a file open/scan failure, which is the only
error path; everything else always succeeds. -/
def parseGo : Option (List (List Char)) → Int → Except Unit ParseResult
  | none, _ => Except.error ()
  | some lines, nowYear => Except.ok (parseLines lines nowYear)

/-! ## Concrete input fixtures used by individual claims -/

def c1Text : List Char := str "SPBU 31.117.02 38,357.00 DB"

def c1BufferBare : List (List Char) := [str "01/03 PEMBAYARAN", c1Text]

def c1BufferMarked : List (List Char) := [str "06/03 KARTU DEBIT", c1Text]

def c2Lines : List (List Char) :=
  [str "TANGGAL KETERANGAN CBG MUTASI SALDO", str "01/01 TRSF CR 10.00 20.00"]

def c3Lines : List (List Char) :=
  [str "TANGGAL KETERANGAN CBG MUTASI SALDO",
   str "18/01 PEMBELIAN QR014",
   str "MCD RUKO SUDIRMAN19/01 TRSF E-BANKING CR 1901/ATSCY/WS95051 3,525,000.00"]

def c6LinesLate : List (List Char) :=
  [str "TANGGAL KETERANGAN CBG MUTASI SALDO",
   str "01/01 TRSF CR 10.00 20.00", str "02/01 SALDO AWAL 100.00"]

def c6LinesTwice : List (List Char) :=
  [str "TANGGAL KETERANGAN CBG MUTASI SALDO",
   str "01/01 SALDO AWAL 1.00", str "02/01 SALDO AWAL 2.00"]

def c9Lines : List (List Char) := [str "A", str "B", str "JOHN DOE"]

def c10Line : List Char := str "01/01 TRSF CR 1.00 2.00"

/-! # Theorems for the specification claims -/

/-! ## Shared helper lemmas -/

theorem digit_ne_slash {c : Char} (h : c.isDigit = true) : c ≠ '/' := by
  intro hc; subst hc; exact absurd h (by decide)

theorem daysBeforeYear_nonneg {y : Int} (h : 1 ≤ y) : 0 ≤ daysBeforeYear y := by
  unfold daysBeforeYear; omega

theorem daysBeforeYear_ge {y : Int} (h : 2 ≤ y) : 364 ≤ daysBeforeYear y := by
  unfold daysBeforeYear; omega

theorem monthDaysBefore_12_ge (b : Bool) : 334 ≤ monthDaysBefore b 12 := by
  cases b <;> decide

/-- Under Go's `time.Date` normalisation, any working year of at least 2
yields a strictly positive day number, whatever two-digit day/month values
are supplied; hence the resulting time is never the zero time. -/
theorem goDateDays_pos (year : Int) (month day : Nat) (hy : 2 ≤ year) :
    0 < goDateDays year month day := by
  have key : ∀ (y : Int) (m : Nat), 1 ≤ y →
      (334 ≤ monthDaysBefore (isLeap y) m ∨ 2 ≤ y) →
      0 < daysBeforeYear y + (monthDaysBefore (isLeap y) m : Int) + (day : Int) - 1 := by
    intro y m h1 h2
    have hnn := daysBeforeYear_nonneg h1
    have hmn : (0 : Int) ≤ (monthDaysBefore (isLeap y) m : Int) := Int.ofNat_nonneg _
    rcases h2 with h2 | h2
    · omega
    · have := daysBeforeYear_ge h2
      omega
  show 0 < daysBeforeYear (normYM year month).1 +
      (monthDaysBefore (isLeap (normYM year month).1) (normYM year month).2 : Int) +
      (day : Int) - 1
  by_cases hm : month = 0
  · have h1 : normYM year month = (year - 1, 12) := by simp [normYM, hm]
    rw [h1]
    exact key (year - 1) 12 (by omega) (Or.inl (monthDaysBefore_12_ge _))
  · have h1 : normYM year month = (year + ((month - 1) / 12 : Nat), (month - 1) % 12 + 1) := by
      simp [normYM, hm]
    rw [h1]
    have hq : (0 : Int) ≤ ((month - 1) / 12 : Nat) := Int.ofNat_nonneg _
    exact key _ _ (by omega) (Or.inr (by omega))

theorem detectType_ne_opening (a b : List Char) : detectType a b ≠ str "OPENING" := by
  simp only [detectType]
  split_ifs <;> decide

theorem genericTxn_length_le (b0 ft : List Char) (t : GoTime) :
    (genericTxn b0 ft t).length ≤ 1 := by
  simp only [genericTxn]
  split_ifs <;> simp

theorem mem_genericTxn {b0 ft : List Char} {t : GoTime} {x : Transaction}
    (hx : x ∈ genericTxn b0 ft t) :
    x.type = detectType b0 ft ∧
    x.amount = (assignAB (extractAmounts (stripLeadDate ft))).1 ∧
    x.balance = (assignAB (extractAmounts (stripLeadDate ft))).2 := by
  simp only [genericTxn] at hx
  split_ifs at hx with h
  · simp at hx
  · simp at hx
    subst hx
    exact ⟨rfl, rfl, rfl⟩

/-- Soundness of the embedded-date search: a reported index always points at
a character that is neither whitespace nor a colon and that is directly
followed by a `\d{2}/\d{2}\s` date token. -/
theorem embeddedDateIdx_sound :
    ∀ (l : List Char) (i : Nat), embeddedDateIdx l = some i →
      ∃ c cs, l.drop i = c :: cs ∧ regexSpace c = false ∧ c ≠ ':' ∧
        embeddedAfterShape cs = true := by
  intro l
  induction l with
  | nil => intro i h; simp [embeddedDateIdx] at h
  | cons c cs ih =>
    intro i h
    unfold embeddedDateIdx at h
    by_cases hc : (!(regexSpace c || c == ':') && embeddedAfterShape cs) = true
    · rw [if_pos hc] at h
      injection h with h
      subst h
      simp only [Bool.and_eq_true, Bool.not_eq_true', Bool.or_eq_false_iff] at hc
      refine ⟨c, cs, by simp, hc.1.1, ?_, hc.2⟩
      have := hc.1.2
      simp at this
      exact this
    · rw [if_neg hc] at h
      rcases Option.map_eq_some'.mp h with ⟨j, hj, rfl⟩
      obtain ⟨c', cs', hd, hsp, hco, hsh⟩ := ih j hj
      exact ⟨c', cs', by simpa using hd, hsp, hco, hsh⟩

/-- C1 (counterexample): on the claim's text `"SPBU 31.117.02 38,357.00 DB"`
taken as one transaction's text, the monetary token extraction does NOT
yield exactly one amount: it yields two, and `117.02` (11702 cents) is
reported — the `"KARTU DEBIT SPBU"` marker required by the pump-code strip
is absent, so the strip never runs and the boundary rule alone accepts
`117.02`.  Processed through the field extractor, `117.02` even becomes the
transaction's amount. -/
theorem extractAmounts_spbu_text_counterexample :
    extractAmounts c1Text = [11702, 3835700] ∧
    (extractAmounts c1Text).length ≠ 1 ∧
    (processTransactionBuffer c1BufferBare 2025).map (fun t => (t.amount, t.balance)) =
      [(11702, 3835700)] := by
  refine ⟨by decide, by decide, by decide⟩

/-- C1 (amended): when the transaction's text carries the full marker phrase
`"KARTU DEBIT SPBU"` before the pump code — the shape of real statements,
here via the date line `"06/03 KARTU DEBIT"` joined with the continuation
`"SPBU 31.117.02 38,357.00 DB"` — the pump code is stripped first and
extraction yields exactly one amount, 38357.00; `117.02` is not reported
anywhere, and the emitted transaction carries 38357.00 as its amount. -/
theorem extractAmounts_spbu_marker_strip :
    extractAmounts (groupFullText c1BufferMarked) = [3835700] ∧
    (processTransactionBuffer c1BufferMarked 2025).map
      (fun t => (t.description, t.type, t.amount, t.balance)) =
      [(str "KARTU DEBIT SPBU", str "DB", 3835700, 0)] := by
  refine ⟨by decide, by decide⟩

/-- C2 (counterexample): parsing is NOT a function of the input lines alone.
On an input whose statement period contains no four-digit year, the
fallback year comes from the ambient wall clock (`time.Now().Year()`,
parser.go:600), so two runs in different wall-clock years produce
different transaction structures for identical input lines. -/
theorem parse_clock_dependent_counterexample :
    parseLines c2Lines 2025 ≠ parseLines c2Lines 2026 ∧
    getYearFromPeriod (extractAccountInfo (contentOf c2Lines) c2Lines).period 2025 = 2025 ∧
    getYearFromPeriod (extractAccountInfo (contentOf c2Lines) c2Lines).period 2026 = 2026 := by
  refine ⟨by decide, by decide, by decide⟩

/-- C6 (counterexample): the code does not enforce the Opening invariant.
An input whose second transaction group contains `"SALDO AWAL"` emits an
Opening record that is not first, and an input with two such groups emits
two Opening records. -/
theorem opening_invariant_counterexample :
    (extractTransactions c6LinesLate 2025).map Transaction.type =
      [str "CR", str "OPENING"] ∧
    (extractTransactions c6LinesTwice 2025).map Transaction.type =
      [str "OPENING", str "OPENING"] := by
  refine ⟨by decide, by decide⟩

/-- C9 (counterexample): the holder lookup does not leave the field at its
empty default on a pattern miss.  For a three-line document without the
holder pattern, the field is filled from the third line (parser.go:112-113)
instead of staying empty. -/
theorem holder_fallback_counterexample :
    holderSearch (contentOf c9Lines) = none ∧
    (extractAccountInfo (contentOf c9Lines) c9Lines).accountHolder = str "JOHN DOE" ∧
    str "JOHN DOE" ≠ ([] : List Char) := by
  refine ⟨by decide, by decide, by decide⟩

/-- C4: year rollover at flush time.  If a flushed group leads with month 12
and the next flushed group leads with month 1, the first flush leaves the
year unchanged and records month 12, and the second flush increments the
year exactly once: the second group is processed with the first group's
year plus one.  For every other month transition (including an unparsable
leading month) the tracked year is unchanged. -/
theorem year_rollover_spec :
    (∀ (st : MachineState) (a0 b0 : List Char) (tlA tlB : List (List Char)),
      st.buffer = a0 :: tlA → monthOf a0 = some 12 → monthOf b0 = some 1 →
      (flushBuffer st).year = st.year ∧ (flushBuffer st).lastMonth = 12 ∧
      (flushBuffer { flushBuffer st with buffer := b0 :: tlB }).year = st.year + 1 ∧
      (flushBuffer { flushBuffer st with buffer := b0 :: tlB }).txs =
        (flushBuffer st).txs ++ processTransactionBuffer (b0 :: tlB) (st.year + 1)) ∧
    (∀ (st : MachineState) (c0 : List Char) (tl : List (List Char)) (m : Nat),
      st.buffer = c0 :: tl → monthOf c0 = some m → ¬(st.lastMonth = 12 ∧ m = 1) →
      (flushBuffer st).year = st.year) ∧
    (∀ (st : MachineState) (c0 : List Char) (tl : List (List Char)),
      st.buffer = c0 :: tl → monthOf c0 = none → (flushBuffer st).year = st.year) := by
  refine ⟨?_, ?_, ?_⟩
  · intro st a0 b0 tlA tlB hbuf hA hB
    simp only [flushBuffer, hbuf, hA, hB]
    norm_num
  · intro st c0 tl m hbuf hm hne
    simp only [flushBuffer, hbuf, hm]
    rw [if_neg hne]
  · intro st c0 tl hbuf hm
    simp only [flushBuffer, hbuf, hm]

/-- C4 witness: a concrete December group followed by a January group. -/
theorem year_rollover_witness :
    (flushBuffer { flushBuffer
        { buffer := [str "31/12 TRSF CR 1.00 2.00"], year := 2024, lastMonth := 11,
          inTransactions := true, inPageHeader := false, txs := [] }
      with buffer := [str "05/01 TRSF CR 3.00 4.00"] }).year = 2024 + 1 := by
  have h := (year_rollover_spec.1
    { buffer := [str "31/12 TRSF CR 1.00 2.00"], year := 2024, lastMonth := 11,
      inTransactions := true, inPageHeader := false, txs := [] }
    (str "31/12 TRSF CR 1.00 2.00") (str "05/01 TRSF CR 3.00 4.00") [] []
    rfl (by decide) (by decide))
  exact h.2.2.1

/-- C5: a flushed group whose full text contains `"SALDO AWAL"` and has
exactly one extractable amount is emitted with kind Opening, amount 0 and
balance equal to that amount — the amount lands only in the balance field. -/
theorem saldo_awal_opening_spec (b0 : List Char) (tl : List (List Char)) (year : Int)
    (ds : List Char) (t : GoTime) (a : Nat)
    (hd : leadingDateStr b0 = some ds) (ht : parseDate ds year = some t)
    (hz : t.isZero = false)
    (hm : containsSub (str "SALDO AWAL") (groupFullText (b0 :: tl)) = true)
    (ha : extractAmounts (groupFullText (b0 :: tl)) = [a]) :
    processTransactionBuffer (b0 :: tl) year =
      [{ date := t, description := str "SALDO AWAL", type := str "OPENING",
         amount := 0, balance := a }] := by
  simp [processTransactionBuffer, pTBCore, hd, ht, hz, hm, ha]

/-- C5 witness: a concrete opening-balance group. -/
theorem saldo_awal_opening_witness :
    processTransactionBuffer [str "01/01 SALDO AWAL 5,000,000.00"] 2025 =
      [{ date := { days := 739251, secs := 0 }, description := str "SALDO AWAL",
         type := str "OPENING", amount := 0, balance := 500000000 }] :=
  saldo_awal_opening_spec (str "01/01 SALDO AWAL 5,000,000.00") [] 2025
    (str "01/01") { days := 739251, secs := 0 } 500000000
    (by decide) (by decide) (by decide) (by decide) (by decide)

/-- C7: for a non-special flushed group (no opening/interest/tax/fee marker
in its full text), amount and balance come from the amount sequence
extracted from the date-stripped description: two or more values give
second-to-last as amount and last as balance; exactly one value becomes the
amount with the balance left at zero; an empty sequence leaves both zero. -/
theorem amount_balance_assignment_spec (b0 : List Char) (tl : List (List Char)) (year : Int)
    (hS : containsSub (str "SALDO AWAL") (groupFullText (b0 :: tl)) = false)
    (hB : (containsSub (str "BUNGA") (groupFullText (b0 :: tl)) &&
           !containsSub (str "PAJAK") (groupFullText (b0 :: tl))) = false)
    (hP : containsSub (str "PAJAK BUNGA") (groupFullText (b0 :: tl)) = false)
    (hA : containsSub (str "BIAYA ADM") (groupFullText (b0 :: tl)) = false) :
    ∀ t ∈ processTransactionBuffer (b0 :: tl) year,
      (2 ≤ (extractAmounts (stripLeadDate (groupFullText (b0 :: tl)))).length →
        t.amount = (extractAmounts (stripLeadDate (groupFullText (b0 :: tl)))).getD
            ((extractAmounts (stripLeadDate (groupFullText (b0 :: tl)))).length - 2) 0 ∧
        t.balance = (extractAmounts (stripLeadDate (groupFullText (b0 :: tl)))).getLastD 0) ∧
      ((extractAmounts (stripLeadDate (groupFullText (b0 :: tl)))).length = 1 →
        t.amount = (extractAmounts (stripLeadDate (groupFullText (b0 :: tl)))).headD 0 ∧
        t.balance = 0) ∧
      (extractAmounts (stripLeadDate (groupFullText (b0 :: tl))) = [] →
        t.amount = 0 ∧ t.balance = 0) := by
  intro t ht
  simp only [processTransactionBuffer, pTBCore] at ht
  split at ht
  · simp at ht
  split at ht
  · simp at ht
  rw [hS, hB, hP, hA] at ht
  simp only [Bool.false_eq_true, if_false] at ht
  split_ifs at ht with hz
  · simp at ht
  obtain ⟨-, hamt, hbal⟩ := mem_genericTxn ht
  rw [hamt, hbal]
  simp only [assignAB]
  refine ⟨?_, ?_, ?_⟩
  · intro h2
    rw [if_pos h2]
    exact ⟨rfl, rfl⟩
  · intro h1
    rw [if_neg (by omega), if_pos h1]
    exact ⟨rfl, rfl⟩
  · intro h0
    rw [if_neg (by simp [h0]), if_neg (by simp [h0])]
    exact ⟨rfl, rfl⟩

/-- C7 witness: a concrete two-amount group, a one-amount group being
covered by the same instantiation's second conjunct vacuously. -/
theorem amount_balance_assignment_witness :
    (processTransactionBuffer [str "01/03 TRSF X 10.00 20.00"] 2025).map
      (fun t => (t.amount, t.balance)) = [(1000, 2000)] := by
  have h := amount_balance_assignment_spec (str "01/03 TRSF X 10.00 20.00") [] 2025
    (by decide) (by decide) (by decide) (by decide)
  have hmem : ∀ t ∈ processTransactionBuffer [str "01/03 TRSF X 10.00 20.00"] 2025,
      t.amount = 1000 ∧ t.balance = 2000 := by
    intro t ht
    have := (h t ht).1 (by decide)
    rcases this with ⟨ha, hb⟩
    constructor
    · rw [ha]; decide
    · rw [hb]; decide
  revert hmem
  decide

/-- C8: a continuation line that is a bare amount-shaped token or the fixed
date-back-reference-plus-echoed-amount pattern is dropped before the group's
lines are joined: inserting such a line anywhere among the continuations
changes neither the emitted description nor the amount sequence — the whole
result is unchanged.  The two concrete artifact shapes from the spec are
echo lines. -/
theorem echo_line_dropped_spec (b0 e : List Char) (pre post : List (List Char)) (year : Int)
    (he : isEchoLine e = true) :
    processTransactionBuffer (b0 :: (pre ++ e :: post)) year =
      processTransactionBuffer (b0 :: (pre ++ post)) year ∧
    isEchoLine (str "331000.00") = true ∧
    isEchoLine (str "TANGGAL :07/03 110000.00") = true := by
  refine ⟨?_, by decide, by decide⟩
  have hf : filterBufferTail (pre ++ e :: post) = filterBufferTail (pre ++ post) := by
    simp [filterBufferTail, List.filterMap_append, List.filterMap_cons, he]
  simp [processTransactionBuffer, groupFullText, hf]

/-- C8 witness: the bare echo `"331000.00"` inserted into a concrete group
leaves the parse result unchanged. -/
theorem echo_line_dropped_witness :
    processTransactionBuffer [str "01/03 TRSF X 11.00 22.00", str "331000.00"] 2025 =
      processTransactionBuffer [str "01/03 TRSF X 11.00 22.00"] 2025 :=
  (echo_line_dropped_spec (str "01/03 TRSF X 11.00 22.00") (str "331000.00")
    [] [] 2025 (by decide)).1

/-- C2 (amended): parsing is a deterministic pure function of the input
lines and the ambient wall-clock year; whenever the extracted statement
period contains a four-digit year the wall clock is irrelevant and the
result depends on the input lines alone. -/
theorem parse_deterministic_of_period_year (lines : List (List Char)) (n1 n2 : Int)
    (h : ∃ y, findFourDigits (extractAccountInfo (contentOf lines) lines).period = some y) :
    parseLines lines n1 = parseLines lines n2 := by
  obtain ⟨y, hy⟩ := h
  simp [parseLines, getYearFromPeriod, hy]

/-- C2 witness: with a four-digit year in the period, two runs under
different wall-clock years agree. -/
theorem parse_deterministic_witness :
    parseLines [str "PERIODE : JANUARI 2025"] 1999 =
      parseLines [str "PERIODE : JANUARI 2025"] 2030 :=
  parse_deterministic_of_period_year [str "PERIODE : JANUARI 2025"] 1999 2030
    ⟨2025, by decide⟩

/-- C3: a continuation line (buffer pending, no other classification
applying) containing a transaction-start date token `\d{2}/\d{2}\s` glued
directly after a non-space, non-colon character is split at the leftmost
such token: the text before it is appended to the buffer (when non-empty
after trimming), the buffer is flushed, and the text from the token onward
starts the new buffer; without such a glued token the line is appended
whole, and any reported split point is certified to sit at a non-space,
non-colon character directly before a date token — so a date token that
follows a space or a colon never triggers the split.  On the concrete
merged line from the spec, the prior group closes with description fragment
`MCD RUKO SUDIRMAN` and a new group opens at `19/01`. -/
theorem embedded_split_spec (st : MachineState) (line : List Char)
    (h0 : stripInlineGo line = line) (h1 : trimSpace line = line)
    (h2 : line.isEmpty = false)
    (h3 : containsSub bersambungPhrase line = false)
    (h4 : st.inPageHeader = false)
    (h5 : containsSub sentinelPhrase line = false)
    (h6 : st.inTransactions = true)
    (h7 : isSummaryLine line = false)
    (h8 : pageNumberPat line = false)
    (h9 : dateStart line = false)
    (h10 : st.buffer.isEmpty = false) :
    (∀ i, embeddedDateIdx line = some i →
      lineStep st line =
        { flushBuffer (if (trimSpace (line.take (i + 1))).isEmpty then st
            else { st with buffer := st.buffer ++ [trimSpace (line.take (i + 1))] })
          with buffer := [trimSpace (line.drop (i + 1))] }) ∧
    (embeddedDateIdx line = none →
      lineStep st line = { st with buffer := st.buffer ++ [line] }) ∧
    (∀ i, embeddedDateIdx line = some i →
      ∃ c cs, line.drop i = c :: cs ∧ regexSpace c = false ∧ c ≠ ':' ∧
        embeddedAfterShape cs = true) ∧
    (extractTransactions c3Lines 2025).map (fun t => (t.description, t.type)) =
      [(str "PEMBELIAN QR014 MCD RUKO SUDIRMAN", ([] : List Char)),
       (str "TRSF E-BANKING 1901/ATSCY/WS95051", str "CR")] := by
  refine ⟨?_, ?_, fun i hi => embeddedDateIdx_sound line i hi, by decide⟩
  · intro i hi
    simp [lineStep, h0, h1, h2, h3, h4, h5, h6, h7, h8, h9, h10, hi]
  · intro hn
    simp [lineStep, h0, h1, h2, h3, h4, h5, h6, h7, h8, h9, h10, hn]

/-- C3 witness: the merged line splits against a pending buffer, closing
the prior group with `MCD RUKO SUDIRMAN` and opening a new one at `19/01`. -/
theorem embedded_split_witness :
    lineStep
      { buffer := [str "18/01 PEMBELIAN QR014"], year := 2025, lastMonth := 1,
        inTransactions := true, inPageHeader := false, txs := [] }
      (str "MCD RUKO SUDIRMAN19/01 TRSF E-BANKING CR 1901/ATSCY/WS95051 3,525,000.00") =
      { flushBuffer
          { buffer := [str "18/01 PEMBELIAN QR014", str "MCD RUKO SUDIRMAN"],
            year := 2025, lastMonth := 1,
            inTransactions := true, inPageHeader := false, txs := [] }
        with buffer :=
          [str "19/01 TRSF E-BANKING CR 1901/ATSCY/WS95051 3,525,000.00"] } := by
  have h := (embedded_split_spec
    { buffer := [str "18/01 PEMBELIAN QR014"], year := 2025, lastMonth := 1,
      inTransactions := true, inPageHeader := false, txs := [] }
    (str "MCD RUKO SUDIRMAN19/01 TRSF E-BANKING CR 1901/ATSCY/WS95051 3,525,000.00")
    (by decide) (by decide) (by decide) (by decide) (by decide) (by decide)
    (by decide) (by decide) (by decide) (by decide) (by decide)).1 16 (by decide)
  rw [h]
  decide

/-- C6 (amended): one flushed group emits at most one record, and an
emitted record has Opening kind exactly when the group's full text contains
the `"SALDO AWAL"` marker.  The parser does not otherwise bound the number
or position of Opening records, so the at-most-one-and-first invariant
holds exactly for inputs (such as well-formed statements) whose
marker-containing group is unique and precedes all other emitting groups. -/
theorem opening_emission_spec (buffer : List (List Char)) (year : Int) (t : Transaction)
    (ht : t ∈ processTransactionBuffer buffer year) :
    (processTransactionBuffer buffer year).length ≤ 1 ∧
    (t.type = str "OPENING" ↔
      containsSub (str "SALDO AWAL") (groupFullText buffer) = true) := by
  constructor
  · rcases buffer with _ | ⟨b0, tl⟩
    · simp [processTransactionBuffer]
    simp only [processTransactionBuffer, pTBCore]
    split
    · simp
    split
    · simp
    split_ifs <;> first | simp | exact genericTxn_length_le _ _ _
  · rcases buffer with _ | ⟨b0, tl⟩
    · simp [processTransactionBuffer] at ht
    simp only [processTransactionBuffer, pTBCore] at ht
    split at ht
    · simp at ht
    split at ht
    · simp at ht
    split_ifs at ht with hz hS hB hP hA
    · simp at ht
    · rw [List.mem_singleton] at ht
      have hty : t.type = str "OPENING" := by rw [ht]
      exact ⟨fun _ => hS, fun _ => hty⟩
    · rw [List.mem_singleton] at ht
      have hty : t.type = str "CR" := by rw [ht]
      constructor
      · intro h; rw [hty] at h; exact absurd h (by decide)
      · intro hc; exact absurd hc hS
    · rw [List.mem_singleton] at ht
      have hty : t.type = str "DB" := by rw [ht]
      constructor
      · intro h; rw [hty] at h; exact absurd h (by decide)
      · intro hc; exact absurd hc hS
    · rw [List.mem_singleton] at ht
      have hty : t.type = str "DB" := by rw [ht]
      constructor
      · intro h; rw [hty] at h; exact absurd h (by decide)
      · intro hc; exact absurd hc hS
    · have hty := (mem_genericTxn ht).1
      constructor
      · intro h
        rw [hty] at h
        exact absurd h (detectType_ne_opening _ _)
      · intro hc; exact absurd hc hS

/-- C6 witness: a concrete opening group instantiates the emission law. -/
theorem opening_emission_witness :
    (processTransactionBuffer [str "01/01 SALDO AWAL 5,500.00"] 2025).length ≤ 1 ∧
    ((({ date := { days := 739251, secs := 0 }, description := str "SALDO AWAL",
         type := str "OPENING", amount := 0, balance := 550000 } : Transaction).type =
        str "OPENING") ↔
      containsSub (str "SALDO AWAL")
        (groupFullText [str "01/01 SALDO AWAL 5,500.00"]) = true) :=
  opening_emission_spec [str "01/01 SALDO AWAL 5,500.00"] 2025
    { date := { days := 739251, secs := 0 }, description := str "SALDO AWAL",
      type := str "OPENING", amount := 0, balance := 550000 } (by decide)

/-- C9 (amended): document-acquisition failure is the only error path:
the parse fails exactly when the input cannot be acquired.  A pattern miss
for the account number, period, currency or any of the four footer totals
leaves the field at its zero/empty default; a holder-pattern miss falls
back to the document's third line when one exists and leaves the field
empty only otherwise.  No pattern miss ever fails the parse. -/
theorem lookup_defaults_spec :
    (∀ (acq : Option (List (List Char))) (n : Int),
      parseGo acq n = Except.error () ↔ acq = none) ∧
    (∀ (content : List Char) (lines : List (List Char)),
      scanFor acctNumMatchAt content = none →
      (extractAccountInfo content lines).accountNumber = []) ∧
    (∀ (content : List Char) (lines : List (List Char)),
      scanFor periodMatchAt content = none →
      (extractAccountInfo content lines).period = []) ∧
    (∀ (content : List Char) (lines : List (List Char)),
      scanFor currencyMatchAt content = none →
      (extractAccountInfo content lines).currency = []) ∧
    (∀ (content : List Char) (lines : List (List Char)),
      holderSearch content = none → lines.length ≤ 2 →
      (extractAccountInfo content lines).accountHolder = []) ∧
    (∀ (content : List Char) (lines : List (List Char)),
      holderSearch content = none → 2 < lines.length →
      (extractAccountInfo content lines).accountHolder = trimSpace (lines.getD 2 [])) ∧
    (∀ content : List Char, scanFor saldoAwalMatchAt content = none →
      (extractSummary content).openingBalance = 0) ∧
    (∀ content : List Char, scanFor mutasiCRMatchAt content = none →
      (extractSummary content).totalCredits = 0 ∧ (extractSummary content).creditCount = 0) ∧
    (∀ content : List Char, scanFor mutasiDBMatchAt content = none →
      (extractSummary content).totalDebits = 0 ∧ (extractSummary content).debitCount = 0) ∧
    (∀ content : List Char, scanFor saldoAkhirMatchAt content = none →
      (extractSummary content).closingBalance = 0) := by
  refine ⟨?_, ?_, ?_, ?_, ?_, ?_, ?_, ?_, ?_, ?_⟩
  · intro acq n
    cases acq <;> simp [parseGo]
  · intro content lines h; simp [extractAccountInfo, h]
  · intro content lines h; simp [extractAccountInfo, h]
  · intro content lines h; simp [extractAccountInfo, h]
  · intro content lines h h2
    simp only [extractAccountInfo, h]
    rw [if_neg (by omega)]
  · intro content lines h h2
    simp only [extractAccountInfo, h]
    rw [if_pos h2]
  · intro content h; simp [extractSummary, h]
  · intro content h; simp [extractSummary, h]
  · intro content h; simp [extractSummary, h]
  · intro content h; simp [extractSummary, h]

/-- C9 witness: error on acquisition failure, defaults on a document
matching none of the patterns, and the third-line holder fallback. -/
theorem lookup_defaults_witness :
    parseGo none 0 = Except.error () ∧
    (extractAccountInfo (str "X") []).accountNumber = [] ∧
    (extractAccountInfo (str "X") []).period = [] ∧
    (extractAccountInfo (str "X") []).currency = [] ∧
    (extractAccountInfo (str "X") []).accountHolder = [] ∧
    (extractSummary (str "X")).openingBalance = 0 ∧
    (extractSummary (str "X")).totalCredits = 0 ∧
    (extractSummary (str "X")).totalDebits = 0 ∧
    (extractSummary (str "X")).closingBalance = 0 :=
  ⟨(lookup_defaults_spec.1 none 0).2 rfl,
   lookup_defaults_spec.2.1 (str "X") [] (by decide),
   lookup_defaults_spec.2.2.1 (str "X") [] (by decide),
   lookup_defaults_spec.2.2.2.1 (str "X") [] (by decide),
   lookup_defaults_spec.2.2.2.2.1 (str "X") [] (by decide) (by decide),
   lookup_defaults_spec.2.2.2.2.2.2.1 (str "X") (by decide),
   (lookup_defaults_spec.2.2.2.2.2.2.2.1 (str "X") (by decide)).1,
   (lookup_defaults_spec.2.2.2.2.2.2.2.2.1 (str "X") (by decide)).1,
   lookup_defaults_spec.2.2.2.2.2.2.2.2.2 (str "X") (by decide)⟩

/-- C10 (counterexample): a buffered group whose first line has the
transaction-start shape can still be silently dropped.  With working year 1
the date `01/01` normalises to Go's zero time (`time.Date(1,1,1,...)`), the
`IsZero` guard (parser.go:417-419) fires, and the group vanishes, while the
same group with year 2 is emitted. -/
theorem date_drop_counterexample :
    dateStart c10Line = true ∧
    processTransactionBuffer [c10Line] 1 = [] ∧
    processTransactionBuffer [c10Line] 2 ≠ [] := by
  refine ⟨by decide, by decide, by decide⟩

/-- C10 (amended): for a buffered group whose first line begins with two
digits, a slash and two digits, the date regex and `parseDate` always
succeed — the silent-drop branch for an unparsable date token is
unreachable — and, provided the working year is at least 2 (the case for
every real statement), the parsed time is never Go's zero time, so the
`IsZero` drop is unreachable as well.  Out-of-range numeric month values
are normalised by date arithmetic into a valid calendar month (month 13 of
a year is exactly January of the next year), the day is added as a plain
day offset, and the resulting time always has a zero clock component. -/
theorem date_parse_total_spec (b0 : List Char) (d1 d2 m1 m2 : Char) (tail : List Char)
    (year : Int) (hb : b0 = d1 :: d2 :: '/' :: m1 :: m2 :: tail)
    (h1 : d1.isDigit = true) (h2 : d2.isDigit = true)
    (h3 : m1.isDigit = true) (h4 : m2.isDigit = true) (hy : 2 ≤ year) :
    leadingDateStr b0 = some [d1, d2, '/', m1, m2] ∧
    parseDate [d1, d2, '/', m1, m2] year =
      some (goDate year (twoDigitVal m1 m2) (twoDigitVal d1 d2)) ∧
    (goDate year (twoDigitVal m1 m2) (twoDigitVal d1 d2)).isZero = false ∧
    (goDate year (twoDigitVal m1 m2) (twoDigitVal d1 d2)).secs = 0 ∧
    1 ≤ (normYM year (twoDigitVal m1 m2)).2 ∧
    (normYM year (twoDigitVal m1 m2)).2 ≤ 12 ∧
    (∀ d : Nat, goDateDays year 13 d = goDateDays (year + 1) 1 d) := by
  have hsp : splitOnChar '/' [d1, d2, '/', m1, m2] = [[d1, d2], [m1, m2]] := by
    simp [splitOnChar, digit_ne_slash h1, digit_ne_slash h2,
      digit_ne_slash h3, digit_ne_slash h4]
  have hd : atoi [d1, d2] = some (twoDigitVal d1 d2) := by
    simp [atoi, h1, h2, natOfDigits, twoDigitVal]
  have hm : atoi [m1, m2] = some (twoDigitVal m1 m2) := by
    simp [atoi, h3, h4, natOfDigits, twoDigitVal]
  have hpos := goDateDays_pos year (twoDigitVal m1 m2) (twoDigitVal d1 d2) hy
  refine ⟨?_, ?_, ?_, rfl, ?_, ?_, ?_⟩
  · subst hb
    simp [leadingDateStr, h1, h2, h3, h4]
  · simp [parseDate, hsp, hd, hm]
  · simp only [goDate, GoTime.isZero]
    simp only [Bool.and_eq_false_iff, beq_eq_false_iff_ne, ne_eq]
    left
    omega
  · by_cases hmo : twoDigitVal m1 m2 = 0
    · simp [normYM, hmo]
    · simp [normYM, hmo]
  · by_cases hmo : twoDigitVal m1 m2 = 0
    · simp [normYM, hmo]
    · simp only [normYM, if_neg hmo]
      omega
  · intro d
    have h13 : normYM year 13 = (year + 1, 1) := by
      norm_num [normYM]
    have h01 : normYM (year + 1) 1 = (year + 1, 1) := by
      norm_num [normYM]
    simp [goDateDays, h13, h01]

/-- C10 witness: the date `05/13` with working year 2025 parses, is not
dropped, and normalises to January 2026. -/
theorem date_parse_total_witness :
    leadingDateStr (str "05/13 TRSF") = some (str "05/13") ∧
    parseDate (str "05/13") 2025 = some (goDate 2025 13 5) ∧
    (goDate 2025 13 5).isZero = false ∧
    goDateDays 2025 13 5 = goDateDays 2026 1 5 := by
  have h := date_parse_total_spec (str "05/13 TRSF") '0' '5' '1' '3' (str " TRSF") 2025
    (by decide) (by decide) (by decide) (by decide) (by decide) (by decide)
  refine ⟨h.1, ?_, ?_, ?_⟩
  · have := h.2.1
    simpa using this
  · have := h.2.2.1
    simpa using this
  · have := h.2.2.2.2.2.2 5
    simpa using this

end BCA
